import Mathlib

/-!
Verification development for the `vite-plugin-brotli-compress` core
(`src/index.ts`): pattern matching, file eligibility, the walker's
skip-existing check, the per-file compression engine, the retry wrapper,
the batch scheduler, and the `chunkArray` helper, shallowly embedded in
Lean.  File-system and codec effects are passed in as explicit inputs
(`fsExists`, per-attempt `FileEnv`), so every definition is executable.
-/

/-! ## Pattern matcher (`matchesPattern`)

The source translates a glob pattern to a regex by four sequential global
`String.replace` calls, in this order: `**` ↦ `.*`, then `*` ↦ `[^/]*`,
then `?` ↦ `.`, and finally every `.` — including the dots introduced by
the first and third passes — ↦ `\.`.  Each pass is a leftmost,
non-overlapping scan; we model each one as a structural scan over the
character list. -/

/-- Pass 1, `.replace(/\*\*/g, ".*")`: each (leftmost, non-overlapping)
pair of stars becomes `.*`. -/
def replaceDstar : List Char → List Char
  | '*' :: '*' :: cs => '.' :: '*' :: replaceDstar cs
  | c :: cs => c :: replaceDstar cs
  | [] => []

/-- Pass 2, `.replace(/\*/g, "[^/]*")`: each remaining star becomes the
class-star `[^/]*`. -/
def replaceStar : List Char → List Char
  | '*' :: cs => '[' :: '^' :: '/' :: ']' :: '*' :: replaceStar cs
  | c :: cs => c :: replaceStar cs
  | [] => []

/-- Pass 3, `.replace(/\?/g, ".")`: each question mark becomes a dot. -/
def replaceQm : List Char → List Char
  | '?' :: cs => '.' :: replaceQm cs
  | c :: cs => c :: replaceQm cs
  | [] => []

/-- Pass 4, `.replace(/\./g, "\\.")`: every dot now present — whatever
pass introduced it — is escaped. -/
def escapeDots : List Char → List Char
  | '.' :: cs => '\\' :: '.' :: escapeDots cs
  | c :: cs => c :: escapeDots cs
  | [] => []

/-- The glob-to-regex translation of `matchesPattern` in `src/index.ts`,
with the four passes applied in the source's order. -/
def globToRegex (p : List Char) : List Char :=
  escapeDots (replaceQm (replaceStar (replaceDstar p)))

/-- Tokens of the regex fragment that `globToRegex` emits on patterns free
of raw regex metacharacters: escaped literal dots, the class-star `[^/]*`,
and plain literal characters. -/
inductive RTok where
  | lit (c : Char)
  | starNS
deriving DecidableEq

/-- Characters the JavaScript regex engine treats specially and that this
model does not interpret; a translated pattern containing one of them bare
lies outside the model. -/
def regexMeta (c : Char) : Bool :=
  c == '\\' || c == '[' || c == ']' || c == '(' || c == ')' ||
  c == '{' || c == '}' || c == '^' || c == '$' || c == '.' ||
  c == '*' || c == '+' || c == '?' || c == '|'

/-- Fuel-indexed parser for the translated pattern: `\.` parses to a
literal dot, `[^/]*` to the class-star, and any non-metacharacter to
itself; a bare metacharacter (never produced from glob/metacharacter-free
input) yields `none`.  The fuel only forces structural recursion;
`parseRegex` supplies enough of it, and `parseRegexF_irrel` shows the
answer does not depend on it. -/
def parseRegexF : Nat → List Char → Option (List RTok)
  | 0, _ => none
  | _ + 1, [] => some []
  | fuel + 1, c :: cs =>
    if c = '\\' ∧ cs.take 1 = ['.'] then
      (parseRegexF fuel (cs.drop 1)).map (RTok.lit '.' :: ·)
    else if c = '[' ∧ cs.take 4 = ['^', '/', ']', '*'] then
      (parseRegexF fuel (cs.drop 4)).map (RTok.starNS :: ·)
    else if regexMeta c then none
    else (parseRegexF fuel cs).map (RTok.lit c :: ·)

/-- Parses the translated pattern into regex tokens. -/
def parseRegex (l : List Char) : Option (List RTok) :=
  parseRegexF (l.length + 1) l

/-- Fuel-indexed anchored matching of a token list against a character
list, with the standard semantics: a literal consumes exactly itself and
`[^/]*` consumes any run of non-`/` characters (tried via backtracking).
The fuel only forces structural recursion; `rmatch` supplies enough of it,
and `rmatchF_irrel` shows the answer does not depend on it. -/
def rmatchF : Nat → List RTok → List Char → Bool
  | 0, _, _ => false
  | fuel + 1, ts, s =>
    match ts, s with
    | [], [] => true
    | [], _ :: _ => false
    | RTok.lit _ :: _, [] => false
    | RTok.lit c :: ts, x :: xs => c == x && rmatchF fuel ts xs
    | RTok.starNS :: ts, s =>
      rmatchF fuel ts s ||
        (match s with
         | [] => false
         | x :: xs => !(x == '/') && rmatchF fuel (RTok.starNS :: ts) xs)

/-- Anchored (`^...$`) regex matching: `RegExp("^" ++ p ++ "$").test`. -/
def rmatch (ts : List RTok) (s : List Char) : Bool :=
  rmatchF (ts.length + s.length + 1) ts s

/-- `matchesPattern` from `src/index.ts`: an empty pattern list matches
everything; otherwise the path matches if the anchored regex translated
from any pattern accepts it (`Array.prototype.some`). -/
def matchesPattern (filePath : String) (patterns : List String) : Bool :=
  if patterns.length = 0 then true
  else
    patterns.any fun pattern =>
      match parseRegex (globToRegex pattern.toList) with
      | some toks => rmatch toks filePath.toList
      | none => false

/-! ## Eligibility filter (`shouldCompressFile`) -/

/-- The source's upper-bound test `maxSize && fileSize > maxSize`:
an `undefined` `maxSize` is falsy, and so is a configured `maxSize` of
`0`, which therefore disables the upper bound. -/
def maxSizeRejects (fileSize : Nat) : Option Nat → Bool
  | none => false
  | some m => decide (m ≠ 0) && decide (m < fileSize)

/-- `shouldCompressFile` from `src/index.ts`: size bounds first, then the
include patterns (sole authority when non-empty), then the exclude
patterns, then the custom predicate, else eligible. -/
def shouldCompressFile (filePath : String) (fileSize : Nat) (minSize : Nat)
    (maxSize : Option Nat) (excludePatterns includePatterns : List String)
    (shouldCompress : Option (String → Nat → Bool)) : Bool :=
  if fileSize < minSize then false
  else if maxSizeRejects fileSize maxSize then false
  else if 0 < includePatterns.length then matchesPattern filePath includePatterns
  else if 0 < excludePatterns.length && matchesPattern filePath excludePatterns then
    false
  else
    match shouldCompress with
    | some f => f filePath fileSize
    | none => true

/-! ## Existing-artifact check and the walker -/

/-- The codec selection (`CompressionType` in `src/index.ts`). -/
inductive CompressionType where
  | brotli
  | gzip
  | both
deriving DecidableEq, BEq

/-- `compressedFileExists` from `src/index.ts`: for Brotli (or both) an
existing `.br` sibling returns true; for gzip (or both) an existing `.gz`
sibling returns true.  The file system is abstracted by `fsExists`. -/
def compressedFileExists (fsExists : String → Bool) (filePath : String)
    (t : CompressionType) : Bool :=
  if (t == CompressionType.brotli || t == CompressionType.both) &&
      fsExists (filePath ++ ".br") then true
  else if (t == CompressionType.gzip || t == CompressionType.both) &&
      fsExists (filePath ++ ".gz") then true
  else false

/-- `beginsWith pre s` holds when `pre` is an initial segment of `s`. -/
def beginsWith : List Char → List Char → Bool
  | [], _ => true
  | _ :: _, [] => false
  | p :: ps, c :: cs => p == c && beginsWith ps cs

/-- JavaScript `String.prototype.endsWith`, used by the walker's
extension check `entry.name.endsWith("." + ext)`. -/
def endsWithL (s suffixStr : String) : Bool :=
  beginsWith suffixStr.toList.reverse s.toList.reverse

/-- A directory tree: the walker's input.  The source walks the real file
system with a visited-set guard against symlink cycles; a tree value has
no cycles, so the guard is not modelled. -/
inductive FsEntry where
  | file (name : String) (size : Nat)
  | dir (name : String) (entries : List FsEntry)

/-- The configuration slice that `findFiles` receives. -/
structure WalkConfig where
  extensions : List String
  minSize : Nat
  maxSize : Option Nat
  excludePatterns : List String
  includePatterns : List String
  shouldCompress : Option (String → Nat → Bool)
  skipExisting : Bool
  type : CompressionType

/-- `findFiles` from `src/index.ts` over a directory tree: directories
recurse first (their files are appended before the loop continues), and a
file is collected when its name ends with `.` + a configured extension,
`shouldCompressFile` accepts it, and — when `skipExisting` is set — no
compressed sibling for the requested type already exists.  Entry names
resolve to `dirPath ++ "/" ++ name`. -/
def findFiles (fsExists : String → Bool) (cfg : WalkConfig) :
    String → List FsEntry → List String
  | _, [] => []
  | dirPath, FsEntry.dir name sub :: rest =>
    findFiles fsExists cfg (dirPath ++ "/" ++ name) sub ++
      findFiles fsExists cfg dirPath rest
  | dirPath, FsEntry.file name size :: rest =>
    (if cfg.extensions.any (fun ext => endsWithL name ("." ++ ext)) then
      (if shouldCompressFile (dirPath ++ "/" ++ name) size cfg.minSize cfg.maxSize
          cfg.excludePatterns cfg.includePatterns cfg.shouldCompress then
        (if cfg.skipExisting &&
            compressedFileExists fsExists (dirPath ++ "/" ++ name) cfg.type then
          []
        else [dirPath ++ "/" ++ name])
      else [])
    else []) ++ findFiles fsExists cfg dirPath rest

/-! ## Compression engine (`compressFile`)

Codec streams, `fs.statSync` and `fs.unlinkSync` are external
collaborators; one attempt's I/O outcomes are supplied as a `FileEnv`.
`compressFile` resolves with a per-file result record unless `statSync`
throws (the only statement outside the per-codec `try` blocks); each
codec's own failure is caught and tallied in `failedFiles` of the result,
and a failure of `unlinkSync` is caught and ignored. -/

/-- One attempt's external I/O outcomes for one file. -/
structure FileEnv where
  statSize : Except String Nat
  brotli : Except String Nat
  gzip : Except String Nat
  unlink : Except String Unit

/-- The internal `CompressionOptions` record of `src/index.ts` (the
`errorCallback` is abstracted to its presence, `verbose` only drives
logging). -/
structure CompressionOptions where
  type : CompressionType
  quality : Int
  gzipLevel : Int
  deleteOriginal : Bool
  parallel : Bool
  maxParallel : Nat
  verbose : Bool
  continueOnError : Bool
  retryAttempts : Nat
  hasErrorCallback : Bool

/-- The per-file result record that `compressFile` resolves with. -/
structure FileResult where
  compressedFiles : Nat
  failedFiles : Nat
  totalOriginalSize : Nat
  totalCompressedSize : Nat
  brotliFiles : Nat
  gzipFiles : Nat
deriving DecidableEq

/-- `compressFile`'s resolution value together with whether
`fs.unlinkSync` was invoked on the original file. -/
structure EngineOutcome where
  result : FileResult
  unlinkAttempted : Bool
deriving DecidableEq

/-- `compressFile` from `src/index.ts`.  `statSync` failure rejects the
promise; a codec failure increments `failedFiles` without aborting the
other codec; the original is unlinked exactly when `deleteOriginal` is set
and at least one codec succeeded, and an unlink failure is caught without
touching the result. -/
def compressFile (env : FileEnv) (opts : CompressionOptions) :
    Except String EngineOutcome :=
  match env.statSize with
  | Except.error e => Except.error e
  | Except.ok size =>
    let r0 : FileResult :=
      { compressedFiles := 0, failedFiles := 0, totalOriginalSize := size,
        totalCompressedSize := 0, brotliFiles := 0, gzipFiles := 0 }
    let r1 :=
      if opts.type == CompressionType.brotli || opts.type == CompressionType.both then
        match env.brotli with
        | Except.ok sz =>
          { r0 with compressedFiles := r0.compressedFiles + 1,
                    totalCompressedSize := r0.totalCompressedSize + sz,
                    brotliFiles := 1 }
        | Except.error _ => { r0 with failedFiles := r0.failedFiles + 1 }
      else r0
    let r2 :=
      if opts.type == CompressionType.gzip || opts.type == CompressionType.both then
        match env.gzip with
        | Except.ok sz =>
          { r1 with compressedFiles := r1.compressedFiles + 1,
                    totalCompressedSize := r1.totalCompressedSize + sz,
                    gzipFiles := 1 }
        | Except.error _ => { r1 with failedFiles := r1.failedFiles + 1 }
      else r1
    Except.ok { result := r2,
                unlinkAttempted := opts.deleteOriginal && 0 < r2.compressedFiles }

/-! ## Retry wrapper (`compressFileWithRetry`) -/

deriving instance DecidableEq for Except

/-- What one call of `compressFileWithRetry` did: its resolution or
rejection, how many times `compressFile` was attempted, how often the
configured error callback ran, and the terminal error it received. -/
structure RetryOutcome where
  result : Except String FileResult
  attempts : Nat
  callbackCalls : Nat
  callbackErr : Option String
deriving DecidableEq

/-- The retry loop of `compressFileWithRetry`: attempt `compressFile`;
on rejection, retry while attempts remain (the exponential backoff delay
is not modelled), indexing attempts so that `envs n` is attempt `n`'s
I/O.  Returns the final resolution and the number of attempts made. -/
def retryGo (envs : Nat → FileEnv) (opts : CompressionOptions) :
    Nat → Nat → Except String EngineOutcome × Nat
  | attempt, remaining =>
    match compressFile (envs attempt) opts with
    | Except.ok r => (Except.ok r, 1)
    | Except.error e =>
      match remaining with
      | 0 => (Except.error e, 1)
      | n + 1 =>
        let p := retryGo envs opts (attempt + 1) n
        (p.1, p.2 + 1)

/-- `compressFileWithRetry` from `src/index.ts`: up to
`retryAttempts + 1` total attempts; only after all of them fail is the
error callback (when configured) invoked with the terminal error, which
is then rethrown. -/
def compressFileWithRetry (envs : Nat → FileEnv) (opts : CompressionOptions) :
    RetryOutcome :=
  match retryGo envs opts 0 opts.retryAttempts with
  | (Except.ok r, k) =>
    { result := Except.ok r.result, attempts := k, callbackCalls := 0,
      callbackErr := none }
  | (Except.error e, k) =>
    { result := Except.error e, attempts := k,
      callbackCalls := if opts.hasErrorCallback then 1 else 0,
      callbackErr := some e }

/-! ## Batch scheduler (`compressFiles`)

A per-file outcome function `rho : String → Except String FileResult`
plays the role of `await compressFileWithRetry(filePath, options)`: a
`Except.ok` value is a fulfilled promise, a `Except.error` a rejected one.
`Promise.allSettled` never rejects, and the sequential loop's `catch`
block tallies the failure (and fires the error callback) without
rethrowing, so `compressFiles` always returns a statistics record. -/

/-- The `CompressionStats` record of `src/index.ts`; the derived
`compressionRatio` is kept exactly, as a rational. -/
structure CompressionStats where
  totalFiles : Nat
  compressedFiles : Nat
  skippedFiles : Nat
  failedFiles : Nat
  totalOriginalSize : Nat
  totalCompressedSize : Nat
  compressionRatio : ℚ
  timeElapsed : Nat
  brotliFiles : Nat
  gzipFiles : Nat
deriving DecidableEq

/-- The accumulator `compressFiles` starts from: `totalFiles` is the
input length, every other field zero. -/
def initStats (n : Nat) : CompressionStats :=
  { totalFiles := n, compressedFiles := 0, skippedFiles := 0,
    failedFiles := 0, totalOriginalSize := 0, totalCompressedSize := 0,
    compressionRatio := 0, timeElapsed := 0, brotliFiles := 0, gzipFiles := 0 }

/-- One settled per-file outcome folded into the running statistics —
the body shared by the `allSettled` loop (fulfilled/rejected) and the
sequential loop (`try`/`catch`): a resolution adds its counts and sizes,
a rejection adds one to `failedFiles` and nothing else. -/
def foldOutcome (stats : CompressionStats) (r : Except String FileResult) :
    CompressionStats :=
  match r with
  | Except.ok v =>
    { stats with
        compressedFiles := stats.compressedFiles + v.compressedFiles,
        failedFiles := stats.failedFiles + v.failedFiles,
        totalOriginalSize := stats.totalOriginalSize + v.totalOriginalSize,
        totalCompressedSize := stats.totalCompressedSize + v.totalCompressedSize,
        brotliFiles := stats.brotliFiles + v.brotliFiles,
        gzipFiles := stats.gzipFiles + v.gzipFiles }
  | Except.error _ => { stats with failedFiles := stats.failedFiles + 1 }

/-- The finalization step of `compressFiles`: compute the compression
ratio `(originalSize - compressedSize) / originalSize * 100` from the
summed sizes (zero when nothing was measured).  The exact rational value
is formed in one step as `((o - c) * 100) / o`, which equals
`((o - c) / o) * 100`. -/
def finalize (stats : CompressionStats) : CompressionStats :=
  { stats with
      compressionRatio :=
        if 0 < stats.totalOriginalSize then
          Rat.divInt
            ((Int.ofNat stats.totalOriginalSize -
              Int.ofNat stats.totalCompressedSize) * 100)
            (Int.ofNat stats.totalOriginalSize)
        else 0 }

/-- A proof-side reformulation of `chunkArray` for a positive chunk size
`n + 1`: take a chunk, continue after it.  `chunkArrayFuel_pos` shows the
source's loop computes exactly this. -/
def chunkArrayPos : List String → Nat → List (List String)
  | [], _ => []
  | a :: as, n => (a :: as).take (n + 1) :: chunkArrayPos (as.drop n) n
termination_by l => l.length
decreasing_by
  simp only [List.length_cons]
  have h := List.length_drop n as
  omega

/-- The source's `chunkArray` loop verbatim, step-indexed: position `i`,
accumulated `chunks`, one loop iteration (`array.slice(i, i + chunkSize)`
pushed, `i += chunkSize`) per unit of fuel.  `none` means the fuel ran
out before the loop exited — with `chunkSize = 0` and a non-empty array
that happens for every fuel, i.e. the loop never terminates. -/
def chunkArrayFuel (array : List String) (chunkSize : Nat) :
    Nat → Nat → List (List String) → Option (List (List String))
  | 0, _, _ => none
  | fuel + 1, i, chunks =>
    if i < array.length then
      chunkArrayFuel array chunkSize fuel (i + chunkSize)
        (chunks ++ [(array.drop i).take chunkSize])
    else some chunks

/-- `chunkArray` from `src/index.ts`: the loop above run from `i = 0`
with an empty accumulator.  `array.length + 1` units of fuel are enough
for every terminating (positive chunk size) run; on the diverging
`chunkSize = 0`, non-empty-array runs the `.getD []` placeholder stands
for a value the source never produces. -/
def chunkArray (array : List String) (chunkSize : Nat) : List (List String) :=
  (chunkArrayFuel array chunkSize (array.length + 1) 0 []).getD []

/-- `compressFiles` from `src/index.ts`.  Parallel mode folds each
chunk's settled results in order, chunk after chunk; sequential mode
folds one file at a time, catching rejections; both end with the ratio
computation.  `timeElapsed` is written later by `closeBundle` and stays
zero here.  `continueOnError` is accepted (in `opts`) but never read. -/
def compressFiles (rho : String → Except String FileResult)
    (files : List String) (opts : CompressionOptions) : CompressionStats :=
  finalize
    (if opts.parallel then
      (chunkArray files opts.maxParallel).foldl
        (fun s chunk => (chunk.map rho).foldl foldOutcome s)
        (initStats files.length)
    else
      files.foldl (fun s f => foldOutcome s (rho f)) (initStats files.length))

/-! ## Lemmas: anchored regex matching -/

/-- The fuel argument of `rmatchF` is irrelevant once it exceeds the
total length of the inputs.  The auxiliary bound `k` dominates the first
fuel so that the induction hypothesis applies at both fuels. -/
theorem rmatchF_irrel :
    ∀ k f₁ f₂ ts s, f₁ ≤ k → ts.length + s.length < f₁ →
      ts.length + s.length < f₂ → rmatchF f₁ ts s = rmatchF f₂ ts s := by
  intro k
  induction k with
  | zero => intro f₁ f₂ ts s hk h1 _; omega
  | succ k ih =>
    intro f₁ f₂ ts s hk h1 h2
    obtain ⟨a, rfl⟩ : ∃ a, f₁ = a + 1 := ⟨f₁ - 1, by omega⟩
    obtain ⟨b, rfl⟩ : ∃ b, f₂ = b + 1 := ⟨f₂ - 1, by omega⟩
    match ts, s with
    | [], [] => rfl
    | [], _ :: _ => rfl
    | RTok.lit _ :: _, [] => rfl
    | RTok.lit c :: ts, x :: xs =>
      simp only [rmatchF]
      rw [ih a b ts xs (by omega)
        (by simp only [List.length_cons] at h1 ⊢; omega)
        (by simp only [List.length_cons] at h2 ⊢; omega)]
    | RTok.starNS :: ts, [] =>
      simp only [rmatchF]
      rw [ih a b ts [] (by omega)
        (by simp only [List.length_cons] at h1 ⊢; omega)
        (by simp only [List.length_cons] at h2 ⊢; omega)]
    | RTok.starNS :: ts, x :: xs =>
      simp only [rmatchF]
      rw [ih a b ts (x :: xs) (by omega)
        (by simp only [List.length_cons] at h1 ⊢; omega)
        (by simp only [List.length_cons] at h2 ⊢; omega),
        ih a b (RTok.starNS :: ts) xs (by omega)
          (by simp only [List.length_cons] at h1 ⊢; omega)
          (by simp only [List.length_cons] at h2 ⊢; omega)]

theorem rmatch_eq_rmatchF {f : Nat} (ts : List RTok) (s : List Char)
    (h : ts.length + s.length < f) : rmatch ts s = rmatchF f ts s := by
  unfold rmatch
  exact rmatchF_irrel (max (ts.length + s.length + 1) f) _ f ts s
    (by omega) (by omega) h

/-- Unfolding: matching a literal token against a nonempty string. -/
theorem rmatch_lit (c : Char) (ts : List RTok) (x : Char) (xs : List Char) :
    rmatch (RTok.lit c :: ts) (x :: xs) = (c == x && rmatch ts xs) := by
  rw [show rmatch (RTok.lit c :: ts) (x :: xs)
      = rmatchF (ts.length + xs.length + 2 + 1) (RTok.lit c :: ts) (x :: xs) from
    rmatch_eq_rmatchF _ _ (by simp only [List.length_cons]; omega)]
  show (c == x && rmatchF (ts.length + xs.length + 2) ts xs) = _
  rw [← rmatch_eq_rmatchF ts xs (by omega)]

/-- Unfolding: matching the class-star `[^/]*`. -/
theorem rmatch_star (ts : List RTok) (s : List Char) :
    rmatch (RTok.starNS :: ts) s =
      (rmatch ts s ||
        (match s with
         | [] => false
         | x :: xs => !(x == '/') && rmatch (RTok.starNS :: ts) xs)) := by
  rw [show rmatch (RTok.starNS :: ts) s
      = rmatchF (ts.length + s.length + 1 + 1) (RTok.starNS :: ts) s from
    rmatch_eq_rmatchF _ _ (by simp only [List.length_cons]; omega)]
  show (rmatchF (ts.length + s.length + 1) ts s ||
    (match s with
     | [] => false
     | x :: xs =>
       !(x == '/') && rmatchF (ts.length + s.length + 1) (RTok.starNS :: ts) xs)) = _
  rw [← rmatch_eq_rmatchF ts s (by omega)]
  match s with
  | [] => rfl
  | x :: xs =>
    show (rmatch ts (x :: xs) ||
        (!(x == '/') &&
          rmatchF (ts.length + (x :: xs).length + 1) (RTok.starNS :: ts) xs)) =
      (rmatch ts (x :: xs) || (!(x == '/') && rmatch (RTok.starNS :: ts) xs))
    rw [← rmatch_eq_rmatchF (RTok.starNS :: ts) xs
      (by simp only [List.length_cons]; omega)]

/-! ## Lemmas: `chunkArray` -/

/-- `chunkArrayPos` chunks concatenate back to the input array. -/
theorem chunkArrayPos_join : ∀ (l : List String) (n : Nat),
    (chunkArrayPos l n).flatten = l
  | [], _ => by simp [chunkArrayPos]
  | a :: as, n => by
    simp only [chunkArrayPos, List.flatten_cons]
    rw [chunkArrayPos_join (as.drop n) n]
    simp only [List.take_succ_cons, List.cons_append, List.cons.injEq, true_and]
    exact List.take_append_drop n as
termination_by l _ => l.length
decreasing_by
  simp only [List.length_cons]
  have h := List.length_drop n as
  omega

/-- Every `chunkArrayPos` chunk has at most `n + 1` elements. -/
theorem chunkArrayPos_len : ∀ (l : List String) (n : Nat) (c : List String),
    c ∈ chunkArrayPos l n → c.length ≤ n + 1
  | [], _, _ => by intro h; simp [chunkArrayPos] at h
  | a :: as, n, c => by
    intro h
    simp only [chunkArrayPos, List.mem_cons] at h
    rcases h with h | h
    · rw [h, List.length_take]
      omega
    · exact chunkArrayPos_len (as.drop n) n c h
termination_by l _ _ => l.length
decreasing_by
  simp only [List.length_cons]
  have h := List.length_drop n as
  omega

/-- With a positive chunk size, the source's loop (step-indexed) halts
within `array.length - i` iterations and produces the chunks of the
remaining slice appended to the accumulator. -/
theorem chunkArrayFuel_pos : ∀ (fuel : Nat) (array : List String) (n i : Nat)
    (acc : List (List String)), array.length - i < fuel →
    chunkArrayFuel array (n + 1) fuel i acc =
      some (acc ++ chunkArrayPos (array.drop i) n) := by
  intro fuel
  induction fuel with
  | zero => intro array n i acc h; omega
  | succ fuel ih =>
    intro array n i acc h
    simp only [chunkArrayFuel]
    by_cases hi : i < array.length
    · rw [if_pos hi, ih array n (i + (n + 1)) _ (by omega)]
      have hne : array.drop i ≠ [] := by
        intro hcon
        have := List.drop_eq_nil_iff.mp hcon
        omega
      obtain ⟨b, bs, hbs⟩ := List.exists_cons_of_ne_nil hne
      have h1 : array.drop (i + 1) = bs := by
        rw [← List.tail_drop, hbs]
        rfl
      have hdrop : bs.drop n = array.drop (i + (n + 1)) := by
        rw [← h1, List.drop_drop]
        congr 1
        omega
      rw [hbs]
      simp only [chunkArrayPos]
      rw [hdrop]
      simp [List.append_assoc]
    · rw [if_neg hi]
      have hd : array.drop i = [] := List.drop_eq_nil_iff.mpr (by omega)
      rw [hd]
      simp [chunkArrayPos]

/-- For a positive chunk size, `chunkArray` computes the structural
chunking. -/
theorem chunkArray_pos_eq (array : List String) (n : Nat) :
    chunkArray array (n + 1) = chunkArrayPos array n := by
  unfold chunkArray
  rw [chunkArrayFuel_pos (array.length + 1) array n 0 [] (by omega)]
  simp

/-- With chunk size `0` the source's loop never leaves a position inside
the array: no amount of fuel reaches the exit test. -/
theorem chunkArrayFuel_zero : ∀ (fuel : Nat) (array : List String) (i : Nat)
    (acc : List (List String)), i < array.length →
    chunkArrayFuel array 0 fuel i acc = none := by
  intro fuel
  induction fuel with
  | zero => intro array i acc _; rfl
  | succ fuel ih =>
    intro array i acc hi
    simp only [chunkArrayFuel]
    rw [if_pos hi]
    exact ih array (i + 0) _ (by omega)

/-! ## Lemmas: batch folding -/

/-- `foldOutcome` never touches `skippedFiles`. -/
theorem foldOutcome_skipped (s : CompressionStats) (r : Except String FileResult) :
    (foldOutcome s r).skippedFiles = s.skippedFiles := by
  cases r <;> rfl

/-- Folding any outcome sequence leaves `skippedFiles` unchanged. -/
theorem foldl_foldOutcome_skipped {α : Type} (g : α → Except String FileResult) :
    ∀ (l : List α) (s : CompressionStats),
      (l.foldl (fun s a => foldOutcome s (g a)) s).skippedFiles = s.skippedFiles := by
  intro l
  induction l with
  | nil => intro s; rfl
  | cons a as ih => intro s; rw [List.foldl_cons, ih, foldOutcome_skipped]

/-- `foldOutcome` steps commute: folding two settled outcomes in either
order yields the same statistics (all updates are additions). -/
theorem foldOutcome_comm (s : CompressionStats)
    (r₁ r₂ : Except String FileResult) :
    foldOutcome (foldOutcome s r₁) r₂ = foldOutcome (foldOutcome s r₂) r₁ := by
  cases s
  cases r₁ <;> cases r₂ <;> simp [foldOutcome] <;> omega

/-- Folding respects permutations of the file list. -/
theorem foldl_foldOutcome_perm (rho : String → Except String FileResult) :
    ∀ {l₁ l₂ : List String}, l₁.Perm l₂ → ∀ s : CompressionStats,
      l₁.foldl (fun s f => foldOutcome s (rho f)) s =
        l₂.foldl (fun s f => foldOutcome s (rho f)) s := by
  intro l₁ l₂ h
  induction h with
  | nil => intro s; rfl
  | cons x _ ih => intro s; rw [List.foldl_cons, List.foldl_cons, ih]
  | swap x y l =>
    intro s
    rw [List.foldl_cons, List.foldl_cons, List.foldl_cons, List.foldl_cons,
      foldOutcome_comm]
  | trans _ _ ih₁ ih₂ => intro s; rw [ih₁, ih₂]

/-- The chunk-by-chunk fold of settled results equals the fold over the
concatenation of the chunks. -/
theorem foldl_chunks (rho : String → Except String FileResult) :
    ∀ (chunks : List (List String)) (s : CompressionStats),
      chunks.foldl (fun s chunk => (chunk.map rho).foldl foldOutcome s) s =
        chunks.flatten.foldl (fun s f => foldOutcome s (rho f)) s := by
  intro chunks
  induction chunks with
  | nil => intro s; rfl
  | cons c cs ih =>
    intro s
    rw [List.foldl_cons, List.flatten_cons, List.foldl_append, ih,
      List.foldl_map]

/-- In parallel mode (with a positive `maxParallel`) and in sequential
mode alike, `compressFiles` is the finalized fold of the per-file
outcomes over the whole input list: chunking only regroups the same left
fold, and no rejection interrupts it. -/
theorem compressFiles_eq_fold (rho : String → Except String FileResult)
    (files : List String) (opts : CompressionOptions)
    (h : opts.parallel = false ∨ 1 ≤ opts.maxParallel) :
    compressFiles rho files opts =
      finalize (files.foldl (fun s f => foldOutcome s (rho f))
        (initStats files.length)) := by
  unfold compressFiles
  by_cases hp : opts.parallel = true
  · rcases h with h | h
    · rw [h] at hp; cases hp
    · obtain ⟨n, hn⟩ : ∃ n, opts.maxParallel = n + 1 :=
        ⟨opts.maxParallel - 1, by omega⟩
      rw [if_pos hp, hn, chunkArray_pos_eq,
        foldl_chunks rho (chunkArrayPos files n) (initStats files.length),
        chunkArrayPos_join]
  · rw [if_neg hp]

/-! ## Lemmas: the retry loop -/

/-- When the attempt resolves, the retry loop returns it after one
attempt, whatever budget remains. -/
theorem retryGo_of_ok {envs : Nat → FileEnv} {opts : CompressionOptions}
    {a rem : Nat} {r : EngineOutcome}
    (h : compressFile (envs a) opts = Except.ok r) :
    retryGo envs opts a rem = (Except.ok r, 1) := by
  rw [retryGo.eq_def]
  show (match compressFile (envs a) opts with
    | Except.ok r => (Except.ok r, 1)
    | Except.error e =>
      match rem with
      | 0 => (Except.error e, 1)
      | n + 1 =>
        let p := retryGo envs opts (a + 1) n
        (p.1, p.2 + 1)) = _
  rw [h]

/-- When the attempt rejects and no retries remain, the loop rethrows
after that single attempt. -/
theorem retryGo_of_error_zero {envs : Nat → FileEnv} {opts : CompressionOptions}
    {a : Nat} {e : String}
    (h : compressFile (envs a) opts = Except.error e) :
    retryGo envs opts a 0 = (Except.error e, 1) := by
  rw [retryGo.eq_def]
  show (match compressFile (envs a) opts with
    | Except.ok r => (Except.ok r, 1)
    | Except.error e =>
      match (0 : Nat) with
      | 0 => (Except.error e, 1)
      | n + 1 =>
        let p := retryGo envs opts (a + 1) n
        (p.1, p.2 + 1)) = _
  rw [h]

/-- When the attempt rejects and retries remain, the loop recurses with
one more attempt counted. -/
theorem retryGo_of_error_succ {envs : Nat → FileEnv} {opts : CompressionOptions}
    {a n : Nat} {e : String}
    (h : compressFile (envs a) opts = Except.error e) :
    retryGo envs opts a (n + 1) =
      ((retryGo envs opts (a + 1) n).1, (retryGo envs opts (a + 1) n).2 + 1) := by
  rw [retryGo.eq_def]
  show (match compressFile (envs a) opts with
    | Except.ok r => (Except.ok r, 1)
    | Except.error e =>
      match n + 1 with
      | 0 => (Except.error e, 1)
      | n + 1 =>
        let p := retryGo envs opts (a + 1) n
        (p.1, p.2 + 1)) = _
  rw [h]

/-- Folding a list of settled outcomes leaves `skippedFiles` unchanged. -/
theorem foldl_outcomes_skipped :
    ∀ (l : List (Except String FileResult)) (s : CompressionStats),
      (l.foldl foldOutcome s).skippedFiles = s.skippedFiles := by
  intro l
  induction l with
  | nil => intro s; rfl
  | cons r rs ih => intro s; rw [List.foldl_cons, ih, foldOutcome_skipped]

/-! ## Claim C9 -/

/-- C9: for every input file list, per-file outcome function and options,
the statistics record returned by `compressFiles` has `skippedFiles = 0`:
the field starts at zero and no code path in `compressFiles` ever
increments it. -/
theorem compressFiles_skippedFiles_eq_zero
    (rho : String → Except String FileResult) (files : List String)
    (opts : CompressionOptions) :
    (compressFiles rho files opts).skippedFiles = 0 := by
  unfold compressFiles
  have hfin : ∀ s : CompressionStats, (finalize s).skippedFiles = s.skippedFiles :=
    fun s => rfl
  by_cases hp : opts.parallel = true
  · rw [if_pos hp, hfin]
    have key : ∀ (chunks : List (List String)) (s0 : CompressionStats),
        (chunks.foldl (fun s chunk => (chunk.map rho).foldl foldOutcome s)
          s0).skippedFiles = s0.skippedFiles := by
      intro chunks
      induction chunks with
      | nil => intro s0; rfl
      | cons c cs ih =>
        intro s0
        rw [List.foldl_cons, ih, foldl_outcomes_skipped]
    rw [key]
    rfl
  · rw [if_neg hp, hfin, foldl_foldOutcome_skipped]
    rfl

/-! ## Claim C10 -/

/-- C10: for every array and chunk size ≥ 1, the `chunkArray` loop
terminates (witnessed by the step-indexed loop finishing within
`array.length + 1` iterations) and returns chunks, each of length at most
`chunkSize`, whose concatenation equals the input array; and the
precondition is necessary: with `chunkSize = 0` (reachable through the
public `maxParallel` option, which `compressFiles` passes straight to
`chunkArray`) and a non-empty array, the loop runs forever — no fuel
makes it halt. -/
theorem chunkArray_terminates_and_flattens (array : List String)
    (chunkSize : Nat) :
    (1 ≤ chunkSize →
      chunkArrayFuel array chunkSize (array.length + 1) 0 []
          = some (chunkArray array chunkSize)
        ∧ (chunkArray array chunkSize).flatten = array
        ∧ ∀ c ∈ chunkArray array chunkSize, c.length ≤ chunkSize)
    ∧ (array ≠ [] → ∀ fuel, chunkArrayFuel array 0 fuel 0 [] = none) := by
  constructor
  · intro h
    obtain ⟨n, rfl⟩ : ∃ n, chunkSize = n + 1 := ⟨chunkSize - 1, by omega⟩
    rw [chunkArray_pos_eq]
    refine ⟨?_, chunkArrayPos_join array n,
      fun c hc => chunkArrayPos_len array n c hc⟩
    rw [chunkArrayFuel_pos (array.length + 1) array n 0 [] (by omega)]
    simp
  · intro hne fuel
    apply chunkArrayFuel_zero
    cases array with
    | nil => exact absurd rfl hne
    | cons a as => simp

/-- Witness for C10 at a concrete array: chunking `["a", "b", "c"]` by
`2` flattens back, and with chunk size `0` on `["x"]` no fuel suffices. -/
theorem chunkArray_terminates_and_flattens_witness :
    (chunkArray ["a", "b", "c"] 2).flatten = ["a", "b", "c"]
      ∧ ∀ fuel, chunkArrayFuel ["x"] 0 fuel 0 [] = none :=
  ⟨((chunkArray_terminates_and_flattens ["a", "b", "c"] 2).1 (by decide)).2.1,
   (chunkArray_terminates_and_flattens ["x"] 0).2 (by decide)⟩

/-! ## Claim C1 -/

/-- C1 counterexample: with `continueOnError = false`, a first file whose
compression is rejected does not abort the batch: in sequential mode and
in parallel mode (groups of one, so the failing file is in an earlier
group) the call still returns a statistics record to which the later file
`"b"` contributed its sizes and brotli count — contradicting both "the
whole batch call fails" and "files after the failing one contribute
nothing to the returned statistics". -/
theorem compressFiles_continueOnError_counterexample :
    (compressFiles
        (fun f => if f == "a" then Except.error "stream error"
          else Except.ok ⟨1, 0, 5000, 2000, 1, 0⟩)
        ["a", "b"]
        { type := CompressionType.brotli, quality := 6, gzipLevel := 6,
          deleteOriginal := false, parallel := false, maxParallel := 10,
          verbose := false, continueOnError := false, retryAttempts := 0,
          hasErrorCallback := false }
      = { totalFiles := 2, compressedFiles := 1, skippedFiles := 0,
          failedFiles := 1, totalOriginalSize := 5000,
          totalCompressedSize := 2000, compressionRatio := 60,
          timeElapsed := 0, brotliFiles := 1, gzipFiles := 0 })
    ∧ (compressFiles
        (fun f => if f == "a" then Except.error "stream error"
          else Except.ok ⟨1, 0, 5000, 2000, 1, 0⟩)
        ["a", "b"]
        { type := CompressionType.brotli, quality := 6, gzipLevel := 6,
          deleteOriginal := false, parallel := true, maxParallel := 1,
          verbose := false, continueOnError := false, retryAttempts := 0,
          hasErrorCallback := false }
      = { totalFiles := 2, compressedFiles := 1, skippedFiles := 0,
          failedFiles := 1, totalOriginalSize := 5000,
          totalCompressedSize := 2000, compressionRatio := 60,
          timeElapsed := 0, brotliFiles := 1, gzipFiles := 0 }) := by
  constructor <;> decide

/-- C1 (amended): `compressFiles` never consults `continueOnError` — the
sequential loop catches every rejection and the parallel mode settles
every group — so in both modes (parallel requiring only a positive
`maxParallel`) the batch always returns the finalized fold of all
per-file outcomes: a rejection adds one `failedFiles` and every later
file still contributes.  `continueOnError` only controls whether the
`closeBundle` hook rethrows errors raised outside the per-file scope. -/
theorem compressFiles_never_aborted_by_file_failures
    (rho : String → Except String FileResult) (files : List String)
    (opts : CompressionOptions) :
    (∀ b, compressFiles rho files { opts with continueOnError := b }
        = compressFiles rho files opts)
    ∧ (opts.parallel = false ∨ 1 ≤ opts.maxParallel →
        compressFiles rho files opts =
          finalize (files.foldl (fun s f => foldOutcome s (rho f))
            (initStats files.length))) :=
  ⟨fun _ => rfl, fun h => compressFiles_eq_fold rho files opts h⟩

/-- Witness for C1's amended claim at a concrete run. -/
theorem compressFiles_never_aborted_by_file_failures_witness :
    compressFiles (fun _ => Except.error "boom") ["a", "b"]
        { type := CompressionType.brotli, quality := 6, gzipLevel := 6,
          deleteOriginal := false, parallel := true, maxParallel := 2,
          verbose := false, continueOnError := false, retryAttempts := 0,
          hasErrorCallback := false }
      = finalize (["a", "b"].foldl
          (fun s f => foldOutcome s ((fun _ => Except.error "boom") f))
          (initStats (["a", "b"] : List String).length)) :=
  (compressFiles_never_aborted_by_file_failures (fun _ => Except.error "boom")
    ["a", "b"]
    { type := CompressionType.brotli, quality := 6, gzipLevel := 6,
      deleteOriginal := false, parallel := true, maxParallel := 2,
      verbose := false, continueOnError := false, retryAttempts := 0,
      hasErrorCallback := false }).2 (Or.inr (by decide))

/-! ## Claim C8 -/

/-- C8: with `parallel = true` and a fixed positive `maxParallel`, and
per-file outcomes given by a fixed function of the path, permuting the
input file list leaves the returned statistics — totals, counts,
per-codec counts and the derived ratio — exactly equal (the model's
rationals are exact): the fold step only sums and counts. -/
theorem compressFiles_perm_invariant
    (rho : String → Except String FileResult) (opts : CompressionOptions)
    (files₁ files₂ : List String) (hperm : files₁.Perm files₂)
    (hpar : opts.parallel = true) (hmax : 1 ≤ opts.maxParallel) :
    compressFiles rho files₁ opts = compressFiles rho files₂ opts := by
  rw [compressFiles_eq_fold rho files₁ opts (Or.inr hmax),
    compressFiles_eq_fold rho files₂ opts (Or.inr hmax),
    hperm.length_eq, foldl_foldOutcome_perm rho hperm]

/-- Witness for C8: swapping two files leaves the statistics equal. -/
theorem compressFiles_perm_invariant_witness :
    compressFiles
        (fun f => if f == "a" then Except.error "boom"
          else Except.ok ⟨1, 0, 4000, 1000, 1, 0⟩)
        ["a", "b"]
        { type := CompressionType.brotli, quality := 6, gzipLevel := 6,
          deleteOriginal := false, parallel := true, maxParallel := 1,
          verbose := false, continueOnError := true, retryAttempts := 0,
          hasErrorCallback := false }
      = compressFiles
          (fun f => if f == "a" then Except.error "boom"
            else Except.ok ⟨1, 0, 4000, 1000, 1, 0⟩)
          ["b", "a"]
          { type := CompressionType.brotli, quality := 6, gzipLevel := 6,
            deleteOriginal := false, parallel := true, maxParallel := 1,
            verbose := false, continueOnError := true, retryAttempts := 0,
            hasErrorCallback := false } :=
  compressFiles_perm_invariant
    (fun f => if f == "a" then Except.error "boom"
      else Except.ok ⟨1, 0, 4000, 1000, 1, 0⟩)
    { type := CompressionType.brotli, quality := 6, gzipLevel := 6,
      deleteOriginal := false, parallel := true, maxParallel := 1,
      verbose := false, continueOnError := true, retryAttempts := 0,
      hasErrorCallback := false }
    ["a", "b"] ["b", "a"] (List.Perm.swap "b" "a" []) rfl (by decide)

/-! ## Claim C4 -/

/-- C4 counterexample: with a configured `maxSize` of `0` (defined in the
public options type) a 5000-byte file is still eligible, although
`s > maxSize`: the source's truthiness test `maxSize && fileSize > maxSize`
skips the bound when `maxSize` is `0`. -/
theorem shouldCompressFile_maxSize_zero_counterexample :
    shouldCompressFile "app.js" 5000 0 (some 0) [] [] none = true := by decide

/-- C4 (amended): a file is eligible only if `minSize ≤ s` and — whenever
`maxSize` is defined *and nonzero* — `s ≤ maxSize`; a file with
`s = minSize - 1` is never eligible, and a file with `s = minSize` passes
the size checks (boundaries inclusive).  A defined `maxSize` of `0`
behaves as no upper bound (JavaScript truthiness of `maxSize &&`). -/
theorem shouldCompressFile_size_bounds (filePath : String) (s minSize : Nat)
    (maxSize : Option Nat) (excl incl : List String)
    (pred : Option (String → Nat → Bool)) :
    (shouldCompressFile filePath s minSize maxSize excl incl pred = true →
      minSize ≤ s ∧ ∀ m, maxSize = some m → 0 < m → s ≤ m)
    ∧ (1 ≤ minSize →
        shouldCompressFile filePath (minSize - 1) minSize maxSize excl incl pred
          = false)
    ∧ (minSize ≤ s → maxSizeRejects s maxSize = false →
        shouldCompressFile filePath s minSize maxSize [] [] none = true) := by
  refine ⟨?_, ?_, ?_⟩
  · intro h
    unfold shouldCompressFile at h
    by_cases h1 : s < minSize
    · rw [if_pos h1] at h
      cases h
    · rw [if_neg h1] at h
      refine ⟨by omega, ?_⟩
      intro m hm hmpos
      by_cases h2 : maxSizeRejects s maxSize = true
      · rw [if_pos h2] at h
        cases h
      · subst hm
        simp only [maxSizeRejects, Bool.and_eq_true, decide_eq_true_eq,
          not_and, Decidable.not_not] at h2
        by_cases hms : m < s
        · have := h2 (by omega) 
          omega
        · omega
  · intro hmin
    unfold shouldCompressFile
    rw [if_pos (by omega)]
  · intro hmin hmax
    unfold shouldCompressFile
    rw [if_neg (by omega), if_neg (by simp [hmax])]
    rfl

/-- Witness for C4's amended claim at the boundary sizes. -/
theorem shouldCompressFile_size_bounds_witness :
    shouldCompressFile "a.js" (1024 - 1) 1024 none [] [] none = false
    ∧ shouldCompressFile "a.js" 1024 1024 none [] [] none = true :=
  ⟨(shouldCompressFile_size_bounds "a.js" 0 1024 none [] [] none).2.1
      (by decide),
   (shouldCompressFile_size_bounds "a.js" 1024 1024 none [] [] none).2.2
      (by decide) (by decide)⟩

/-! ## Claim C5 -/

/-- C5: once the size checks pass, a non-empty `includePatterns` list is
the sole authority: eligibility equals `matchesPattern` on the include
list, and neither the exclude patterns nor the custom predicate can
change the answer — in particular a path matching both an exclude and an
include pattern is eligible. -/
theorem shouldCompressFile_include_sole_authority (filePath : String)
    (s minSize : Nat) (maxSize : Option Nat)
    (excl excl' incl : List String)
    (pred pred' : Option (String → Nat → Bool)) (hincl : incl ≠ [])
    (hmin : ¬ s < minSize) (hmax : maxSizeRejects s maxSize = false) :
    shouldCompressFile filePath s minSize maxSize excl incl pred
        = matchesPattern filePath incl
    ∧ shouldCompressFile filePath s minSize maxSize excl incl pred
        = shouldCompressFile filePath s minSize maxSize excl' incl pred' := by
  have key : ∀ (e : List String) (p : Option (String → Nat → Bool)),
      shouldCompressFile filePath s minSize maxSize e incl p
        = matchesPattern filePath incl := by
    intro e p
    unfold shouldCompressFile
    rw [if_neg hmin, if_neg (by simp [hmax]),
      if_pos (List.length_pos.mpr hincl)]
  exact ⟨key excl pred, by rw [key excl pred, key excl' pred']⟩

/-- Witness for C5: a path matched by the exclude list and by the include
list, with a custom predicate that answers `false`, is still eligible. -/
theorem shouldCompressFile_include_sole_authority_witness :
    shouldCompressFile "dist/vendor/app.js" 2048 1024 none
      ["dist/vendor/*"] ["dist/*/app.js"] (some fun _ _ => false) = true := by
  rw [(shouldCompressFile_include_sole_authority "dist/vendor/app.js" 2048 1024
    none ["dist/vendor/*"] [] ["dist/*/app.js"] (some fun _ _ => false) none
    (by decide) (by decide) (by decide)).1]
  decide

/-! ## Claim C6 -/

/-- C6: whenever `compressFile` gets past `statSync`, it resolves with a
result record, the original file is unlinked exactly when
`deleteOriginal` is set and at least one requested codec succeeded, and
the unlink outcome (in particular a deletion failure) changes neither the
result nor the successful resolution. -/
theorem compressFile_delete_iff_codec_success (env : FileEnv)
    (opts : CompressionOptions) (size : Nat)
    (hstat : env.statSize = Except.ok size) :
    ∃ out : EngineOutcome, compressFile env opts = Except.ok out
      ∧ (out.unlinkAttempted = true ↔
          opts.deleteOriginal = true ∧ 0 < out.result.compressedFiles)
      ∧ ∀ u, compressFile { env with unlink := u } opts = Except.ok out := by
  obtain ⟨st, br, gz, ul⟩ := env
  obtain rfl : st = Except.ok size := hstat
  refine ⟨_, rfl, ?_, fun u => rfl⟩
  simp [Bool.and_eq_true, decide_eq_true_eq]

/-- Witness for C6: a run whose brotli codec succeeds and whose unlink
fails still resolves, with the unlink attempted (`deleteOriginal` set,
one codec success). -/
theorem compressFile_delete_iff_codec_success_witness :
    ∃ out : EngineOutcome,
      compressFile
          { statSize := Except.ok 5000, brotli := Except.ok 1200,
            gzip := Except.ok 1500, unlink := Except.error "EPERM" }
          { type := CompressionType.brotli, quality := 6, gzipLevel := 6,
            deleteOriginal := true, parallel := true, maxParallel := 10,
            verbose := false, continueOnError := true, retryAttempts := 0,
            hasErrorCallback := false }
        = Except.ok out
      ∧ (out.unlinkAttempted = true ↔
          ({ type := CompressionType.brotli, quality := 6, gzipLevel := 6,
             deleteOriginal := true, parallel := true, maxParallel := 10,
             verbose := false, continueOnError := true, retryAttempts := 0,
             hasErrorCallback := false } : CompressionOptions).deleteOriginal
              = true
            ∧ 0 < out.result.compressedFiles)
      ∧ ∀ u, compressFile
          { statSize := Except.ok 5000, brotli := Except.ok 1200,
            gzip := Except.ok 1500, unlink := u }
          { type := CompressionType.brotli, quality := 6, gzipLevel := 6,
            deleteOriginal := true, parallel := true, maxParallel := 10,
            verbose := false, continueOnError := true, retryAttempts := 0,
            hasErrorCallback := false }
        = Except.ok out :=
  compressFile_delete_iff_codec_success
    { statSize := Except.ok 5000, brotli := Except.ok 1200,
      gzip := Except.ok 1500, unlink := Except.error "EPERM" }
    { type := CompressionType.brotli, quality := 6, gzipLevel := 6,
      deleteOriginal := true, parallel := true, maxParallel := 10,
      verbose := false, continueOnError := true, retryAttempts := 0,
      hasErrorCallback := false }
    5000 rfl

/-! ## Claim C7 -/

/-- C7: with `skipExisting` set and type `BOTH`, a candidate file (right
extension, eligible) is skipped by the walker if and only if either one
of its `.br` or `.gz` siblings already exists — the existence of any one
requested artifact suffices; both are not required. -/
theorem findFiles_skipExisting_both_either_artifact
    (fsExists : String → Bool) (cfg : WalkConfig) (dirPath name : String)
    (size : Nat) (rest : List FsEntry) (hskip : cfg.skipExisting = true)
    (htype : cfg.type = CompressionType.both)
    (hext : cfg.extensions.any (fun ext => endsWithL name ("." ++ ext)) = true)
    (helig : shouldCompressFile (dirPath ++ "/" ++ name) size cfg.minSize
      cfg.maxSize cfg.excludePatterns cfg.includePatterns cfg.shouldCompress
        = true) :
    compressedFileExists fsExists (dirPath ++ "/" ++ name) cfg.type
        = (fsExists (dirPath ++ "/" ++ name ++ ".br")
            || fsExists (dirPath ++ "/" ++ name ++ ".gz"))
    ∧ findFiles fsExists cfg dirPath (FsEntry.file name size :: rest)
        = (if fsExists (dirPath ++ "/" ++ name ++ ".br")
              || fsExists (dirPath ++ "/" ++ name ++ ".gz")
            then []
            else [dirPath ++ "/" ++ name])
          ++ findFiles fsExists cfg dirPath rest := by
  have hcfe : compressedFileExists fsExists (dirPath ++ "/" ++ name) cfg.type
      = (fsExists (dirPath ++ "/" ++ name ++ ".br")
          || fsExists (dirPath ++ "/" ++ name ++ ".gz")) := by
    rw [htype]
    unfold compressedFileExists
    cases h1 : fsExists (dirPath ++ "/" ++ name ++ ".br") <;>
      cases h2 : fsExists (dirPath ++ "/" ++ name ++ ".gz") <;>
        simp [h1, h2] <;> decide
  refine ⟨hcfe, ?_⟩
  simp only [findFiles]
  rw [if_pos hext, if_pos helig, hskip, Bool.true_and, hcfe]

/-- Witness for C7: a `.gz` sibling alone (no `.br`) makes the walker
skip `dist/app.js` under type `BOTH`. -/
theorem findFiles_skipExisting_both_either_artifact_witness :
    compressedFileExists (fun p => p == "dist/app.js.gz") "dist/app.js"
        CompressionType.both
      = ((fun p => p == "dist/app.js.gz") "dist/app.js.br"
          || (fun p => p == "dist/app.js.gz") "dist/app.js.gz")
    ∧ findFiles (fun p => p == "dist/app.js.gz")
        { extensions := ["js"], minSize := 0, maxSize := none,
          excludePatterns := [], includePatterns := [],
          shouldCompress := none, skipExisting := true,
          type := CompressionType.both }
        "dist" [FsEntry.file "app.js" 2048]
      = (if (fun p => p == "dist/app.js.gz") "dist/app.js.br"
            || (fun p => p == "dist/app.js.gz") "dist/app.js.gz"
          then []
          else ["dist/app.js"])
        ++ findFiles (fun p => p == "dist/app.js.gz")
          { extensions := ["js"], minSize := 0, maxSize := none,
            excludePatterns := [], includePatterns := [],
            shouldCompress := none, skipExisting := true,
            type := CompressionType.both }
          "dist" [] :=
  findFiles_skipExisting_both_either_artifact
    (fun p => p == "dist/app.js.gz")
    { extensions := ["js"], minSize := 0, maxSize := none,
      excludePatterns := [], includePatterns := [],
      shouldCompress := none, skipExisting := true,
      type := CompressionType.both }
    "dist" "app.js" 2048 [] rfl rfl (by decide) (by decide)

/-! ## Claim C2 -/

/-- C2 counterexample: with the brotli stream rejecting on every attempt,
`retryAttempts = 2` and `continueOnError = true`, `compressFileWithRetry`
makes exactly **1** attempt (not 3) and invokes the error callback **0**
times (not once): `compressFile` catches the codec failure internally and
resolves with `failedFiles = 1`, so the retry loop sees a success and
never retries nor reaches the callback. -/
theorem compressFileWithRetry_no_retry_counterexample :
    compressFileWithRetry
        (fun _ => { statSize := Except.ok 5000,
                    brotli := Except.error "EPIPE: write stream error",
                    gzip := Except.ok 1500, unlink := Except.ok () })
        { type := CompressionType.brotli, quality := 6, gzipLevel := 6,
          deleteOriginal := false, parallel := true, maxParallel := 10,
          verbose := false, continueOnError := true, retryAttempts := 2,
          hasErrorCallback := true }
      = { result := Except.ok
            { compressedFiles := 0, failedFiles := 1,
              totalOriginalSize := 5000, totalCompressedSize := 0,
              brotliFiles := 0, gzipFiles := 0 },
          attempts := 1, callbackCalls := 0, callbackErr := none } := by
  decide

/-- C2 (amended): for every file whose codec stream raises a write error
on every attempt (brotli requested, `retryAttempts = 2`,
`continueOnError = true`), the compression is attempted exactly **once**
— the codec failure is absorbed inside `compressFile` as a per-codec
failure, so the retry loop never fires — the error callback is **not**
invoked, and the batch completes with `failedFiles` incremented exactly
once for that file (through the per-file result's failed-codec count). -/
theorem compressFileWithRetry_codec_error_absorbed
    (envs : Nat → FileEnv) (opts : CompressionOptions) (s : Nat) (e : String)
    (hstat : (envs 0).statSize = Except.ok s)
    (hbr : (envs 0).brotli = Except.error e)
    (htype : opts.type = CompressionType.brotli)
    (hretry : opts.retryAttempts = 2)
    (hcont : opts.continueOnError = true) :
    compressFileWithRetry envs opts
      = { result := Except.ok
            { compressedFiles := 0, failedFiles := 1,
              totalOriginalSize := s, totalCompressedSize := 0,
              brotliFiles := 0, gzipFiles := 0 },
          attempts := 1, callbackCalls := 0, callbackErr := none }
    ∧ ∀ f : String,
        (compressFiles (fun _ => (compressFileWithRetry envs opts).result)
          [f] { opts with parallel := false }).failedFiles = 1 := by
  have hcf : compressFile (envs 0) opts
      = Except.ok ⟨⟨0, 1, s, 0, 0, 0⟩, opts.deleteOriginal && false⟩ := by
    unfold compressFile
    rw [hstat, htype, hbr]
    rfl
  have hro : compressFileWithRetry envs opts
      = { result := Except.ok
            { compressedFiles := 0, failedFiles := 1,
              totalOriginalSize := s, totalCompressedSize := 0,
              brotliFiles := 0, gzipFiles := 0 },
          attempts := 1, callbackCalls := 0, callbackErr := none } := by
    unfold compressFileWithRetry
    rw [retryGo_of_ok hcf]
  refine ⟨hro, fun f => ?_⟩
  rw [hro]
  rfl

/-- Witness for C2's amended claim at a concrete always-failing brotli
stream. -/
theorem compressFileWithRetry_codec_error_absorbed_witness :
    compressFileWithRetry
        (fun _ => { statSize := Except.ok 4096,
                    brotli := Except.error "EPIPE", gzip := Except.ok 900,
                    unlink := Except.ok () })
        { type := CompressionType.brotli, quality := 6, gzipLevel := 6,
          deleteOriginal := false, parallel := true, maxParallel := 10,
          verbose := true, continueOnError := true, retryAttempts := 2,
          hasErrorCallback := true }
      = { result := Except.ok
            { compressedFiles := 0, failedFiles := 1,
              totalOriginalSize := 4096, totalCompressedSize := 0,
              brotliFiles := 0, gzipFiles := 0 },
          attempts := 1, callbackCalls := 0, callbackErr := none } :=
  (compressFileWithRetry_codec_error_absorbed
    (fun _ => { statSize := Except.ok 4096,
                brotli := Except.error "EPIPE", gzip := Except.ok 900,
                unlink := Except.ok () })
    { type := CompressionType.brotli, quality := 6, gzipLevel := 6,
      deleteOriginal := false, parallel := true, maxParallel := 10,
      verbose := true, continueOnError := true, retryAttempts := 2,
      hasErrorCallback := true }
    4096 "EPIPE" rfl rfl rfl rfl rfl).1

/-! ## Lemmas: the glob-to-regex translation -/

/-- The fuel argument of `parseRegexF` is irrelevant once it exceeds the
input length. -/
theorem parseRegexF_irrel :
    ∀ k f₁ f₂ l, f₁ ≤ k → l.length < f₁ → l.length < f₂ →
      parseRegexF f₁ l = parseRegexF f₂ l := by
  intro k
  induction k with
  | zero => intro f₁ f₂ l hk h1 _; omega
  | succ k ih =>
    intro f₁ f₂ l hk h1 h2
    obtain ⟨a, rfl⟩ : ∃ a, f₁ = a + 1 := ⟨f₁ - 1, by omega⟩
    obtain ⟨b, rfl⟩ : ∃ b, f₂ = b + 1 := ⟨f₂ - 1, by omega⟩
    match l with
    | [] => rfl
    | c :: cs =>
      simp only [parseRegexF]
      simp only [List.length_cons] at h1 h2
      by_cases hc1 : c = '\\' ∧ cs.take 1 = ['.']
      · rw [if_pos hc1, if_pos hc1,
          ih a b (cs.drop 1) (by omega)
            (by simp only [List.length_drop]; omega)
            (by simp only [List.length_drop]; omega)]
      · rw [if_neg hc1, if_neg hc1]
        by_cases hc2 : c = '[' ∧ cs.take 4 = ['^', '/', ']', '*']
        · rw [if_pos hc2, if_pos hc2,
            ih a b (cs.drop 4) (by omega)
              (by simp only [List.length_drop]; omega)
              (by simp only [List.length_drop]; omega)]
        · rw [if_neg hc2, if_neg hc2]
          by_cases hc3 : regexMeta c = true
          · rw [if_pos hc3, if_pos hc3]
          · rw [if_neg hc3, if_neg hc3,
              ih a b cs (by omega) (by omega) (by omega)]

theorem parseRegex_eq_parseRegexF {f : Nat} (l : List Char)
    (h : l.length < f) : parseRegex l = parseRegexF f l := by
  unfold parseRegex
  exact parseRegexF_irrel (max (l.length + 1) f) _ f l (by omega) (by omega) h

/-- One unfolding step of `parseRegex` on a nonempty input. -/
theorem parseRegex_cons (c : Char) (cs : List Char) :
    parseRegex (c :: cs) =
      (if c = '\\' ∧ cs.take 1 = ['.'] then
        (parseRegex (cs.drop 1)).map (RTok.lit '.' :: ·)
      else if c = '[' ∧ cs.take 4 = ['^', '/', ']', '*'] then
        (parseRegex (cs.drop 4)).map (RTok.starNS :: ·)
      else if regexMeta c then none
      else (parseRegex cs).map (RTok.lit c :: ·)) := by
  rw [show parseRegex (c :: cs) = parseRegexF (cs.length + 1 + 1) (c :: cs) from
    parseRegex_eq_parseRegexF _ (by simp only [List.length_cons]; omega)]
  show (if c = '\\' ∧ cs.take 1 = ['.'] then
      (parseRegexF (cs.length + 1) (cs.drop 1)).map (RTok.lit '.' :: ·)
    else if c = '[' ∧ cs.take 4 = ['^', '/', ']', '*'] then
      (parseRegexF (cs.length + 1) (cs.drop 4)).map (RTok.starNS :: ·)
    else if regexMeta c then none
    else (parseRegexF (cs.length + 1) cs).map (RTok.lit c :: ·)) = _
  rw [← parseRegex_eq_parseRegexF (cs.drop 1)
      (by simp only [List.length_drop]; omega),
    ← parseRegex_eq_parseRegexF (cs.drop 4)
      (by simp only [List.length_drop]; omega),
    ← parseRegex_eq_parseRegexF cs (by omega)]

/-- A non-metacharacter parses to its own literal token. -/
theorem parseRegex_lit (c : Char) (rest : List Char)
    (h : regexMeta c = false) :
    parseRegex (c :: rest) = (parseRegex rest).map (RTok.lit c :: ·) := by
  have h1 : c ≠ '\\' := by
    intro hh
    rw [hh] at h
    exact absurd h (by decide)
  have h2 : c ≠ '[' := by
    intro hh
    rw [hh] at h
    exact absurd h (by decide)
  rw [parseRegex_cons, if_neg (fun hc => h1 hc.1), if_neg (fun hc => h2 hc.1),
    if_neg (by rw [h]; exact Bool.false_ne_true)]

/-- An escaped dot parses to the literal-dot token. -/
theorem parseRegex_esc (rest : List Char) :
    parseRegex ('\\' :: '.' :: rest) = (parseRegex rest).map (RTok.lit '.' :: ·) := by
  rw [parseRegex_cons, if_pos ⟨rfl, rfl⟩]
  rfl

/-- Pass 2 on a non-star head. -/
theorem replaceStar_cons_ne (c : Char) (cs : List Char) (h : c ≠ '*') :
    replaceStar (c :: cs) = c :: replaceStar cs := by
  rw [replaceStar.eq_def]
  split
  · rename_i heq
    injection heq with h1 _
    exact absurd h1 h
  · rename_i hne heq
    injection heq with h1 h2
    subst h1
    subst h2
    rfl
  · rename_i heq
    cases heq

/-- Pass 3 on a non-question-mark head. -/
theorem replaceQm_cons_ne (c : Char) (cs : List Char) (h : c ≠ '?') :
    replaceQm (c :: cs) = c :: replaceQm cs := by
  rw [replaceQm.eq_def]
  split
  · rename_i heq
    injection heq with h1 _
    exact absurd h1 h
  · rename_i hne heq
    injection heq with h1 h2
    subst h1
    subst h2
    rfl
  · rename_i heq
    cases heq

/-- Pass 4 on a non-dot head. -/
theorem escapeDots_cons_ne (c : Char) (cs : List Char) (h : c ≠ '.') :
    escapeDots (c :: cs) = c :: escapeDots cs := by
  rw [escapeDots.eq_def]
  split
  · rename_i heq
    injection heq with h1 _
    exact absurd h1 h
  · rename_i hne heq
    injection heq with h1 h2
    subst h1
    subst h2
    rfl
  · rename_i heq
    cases heq

/-- Pass 1 on a non-star head. -/
theorem replaceDstar_cons_ne (c : Char) (cs : List Char) (h : c ≠ '*') :
    replaceDstar (c :: cs) = c :: replaceDstar cs := by
  rw [replaceDstar.eq_def]
  split
  · rename_i heq
    injection heq with h1 _
    exact absurd h1 h
  · rename_i hne heq
    injection heq with h1 h2
    subst h1
    subst h2
    rfl
  · rename_i heq
    cases heq

/-- Pass 1 is the identity on star-free patterns. -/
theorem replaceDstar_id : ∀ l : List Char, (∀ c ∈ l, c ≠ '*') →
    replaceDstar l = l := by
  intro l
  induction l with
  | nil => intro _; rfl
  | cons c cs ih =>
    intro h
    rw [replaceDstar_cons_ne c cs (h c (List.mem_cons_self c cs)),
      ih (fun x hx => h x (List.mem_cons_of_mem _ hx))]

/-- Pass 2 is the identity on star-free patterns. -/
theorem replaceStar_id : ∀ l : List Char, (∀ c ∈ l, c ≠ '*') →
    replaceStar l = l := by
  intro l
  induction l with
  | nil => intro _; rfl
  | cons c cs ih =>
    intro h
    rw [replaceStar_cons_ne c cs (h c (List.mem_cons_self c cs)),
      ih (fun x hx => h x (List.mem_cons_of_mem _ hx))]

/-- Pass 3 is the identity on question-mark-free patterns. -/
theorem replaceQm_id : ∀ l : List Char, (∀ c ∈ l, c ≠ '?') →
    replaceQm l = l := by
  intro l
  induction l with
  | nil => intro _; rfl
  | cons c cs ih =>
    intro h
    rw [replaceQm_cons_ne c cs (h c (List.mem_cons_self c cs)),
      ih (fun x hx => h x (List.mem_cons_of_mem _ hx))]

/-- Escaping then parsing a pattern of dots and non-metacharacters
yields exactly its literal tokens. -/
theorem parse_escapeDots : ∀ l : List Char,
    (∀ c ∈ l, c = '.' ∨ regexMeta c = false) →
    parseRegex (escapeDots l) = some (l.map RTok.lit) := by
  intro l
  induction l with
  | nil => intro _; rfl
  | cons c cs ih =>
    intro h
    have hrest : ∀ x ∈ cs, x = '.' ∨ regexMeta x = false :=
      fun x hx => h x (List.mem_cons_of_mem _ hx)
    rcases h c (List.mem_cons_self c cs) with hdot | hmeta
    · subst hdot
      rw [show escapeDots ('.' :: cs) = '\\' :: '.' :: escapeDots cs from rfl,
        parseRegex_esc, ih hrest]
      rfl
    · have hne : c ≠ '.' := by
        intro hh
        rw [hh] at hmeta
        exact absurd hmeta (by decide)
      rw [escapeDots_cons_ne c cs hne, parseRegex_lit c _ hmeta, ih hrest]
      rfl

/-! ## Lemmas: token semantics -/

/-- The class-star over a nonempty string: match the rest here, or
consume one non-separator character. -/
theorem rmatch_star_cons (ts : List RTok) (x : Char) (xs : List Char) :
    rmatch (RTok.starNS :: ts) (x :: xs)
      = (rmatch ts (x :: xs) || (!(x == '/') && rmatch (RTok.starNS :: ts) xs)) := by
  rw [rmatch_star]

/-- A single class-star matches exactly the separator-free strings. -/
theorem rmatch_single_star : ∀ s : List Char,
    rmatch [RTok.starNS] s = s.all (fun c => !(c == '/')) := by
  intro s
  induction s with
  | nil => rfl
  | cons x xs ih =>
    rw [rmatch_star_cons, show rmatch [] (x :: xs) = false from rfl, ih,
      Bool.false_or, List.all_cons]

/-- A pure literal token list matches exactly its own spelling. -/
theorem rmatch_lits : ∀ (l s : List Char),
    rmatch (l.map RTok.lit) s = decide (s = l) := by
  intro l
  induction l with
  | nil =>
    intro s
    cases s with
    | nil => rfl
    | cons x xs => rfl
  | cons c cl ih =>
    intro s
    cases s with
    | nil => rfl
    | cons x xs =>
      rw [List.map_cons, rmatch_lit, ih]
      by_cases hc : c = x
      · subst hc
        by_cases hx : xs = cl
        · subst hx
          simp
        · simp [hx]
      · have hcx : ¬ x = c := fun hh => hc hh.symm
        simp [hc, hcx]

/-! ## Claim C3 -/

/-- C3 counterexample: contrary to the stated glob subset, `?` does not
match the arbitrary single character `a` (it matches only a literal dot),
and `**` does not match the separator-free segment `abc` (it requires a
leading literal dot): the escaping pass runs after token translation, so
`?` compiles to `\.` and `**` to `\.[^/]*`. -/
theorem matchesPattern_glob_tokens_counterexample :
    matchesPattern "a" ["?"] = false ∧ matchesPattern "." ["?"] = true
    ∧ matchesPattern "abc" ["**"] = false
    ∧ matchesPattern ".js" ["**"] = true := by decide

/-- C3 (amended): the matcher's actual semantics.  `*` does match any
run of non-separator characters, and a pattern of ordinary characters
and dots is matched literally (the dot being the only escaped
metacharacter); but `?` matches exactly one literal dot and `**` matches
a literal dot followed by a run of non-separator characters, because the
dot-escaping pass runs after the glob tokens are translated and escapes
the dots that the `**` and `?` translations just introduced. -/
theorem matchesPattern_actual_semantics (s : String) :
    (matchesPattern s ["*"] = true ↔ ∀ c ∈ s.toList, c ≠ '/')
    ∧ (matchesPattern s ["?"] = true ↔ s.toList = ['.'])
    ∧ (matchesPattern s ["**"] = true ↔
        ∃ t, s.toList = '.' :: t ∧ ∀ c ∈ t, c ≠ '/')
    ∧ ∀ pat : String, (∀ c ∈ pat.toList, c = '.' ∨ regexMeta c = false) →
        (matchesPattern s [pat] = true ↔ s.toList = pat.toList) := by
  refine ⟨?_, ?_, ?_, ?_⟩
  · rw [show matchesPattern s ["*"] = (rmatch [RTok.starNS] s.toList || false)
      from rfl, Bool.or_false, rmatch_single_star]
    simp [List.all_eq_true]
  · rw [show matchesPattern s ["?"]
        = (rmatch ((['.'] : List Char).map RTok.lit) s.toList || false)
      from rfl, Bool.or_false, rmatch_lits]
    simp
  · rw [show matchesPattern s ["**"]
        = (rmatch [RTok.lit '.', RTok.starNS] s.toList || false)
      from rfl, Bool.or_false]
    cases hs : s.toList with
    | nil =>
      simp [show rmatch [RTok.lit '.', RTok.starNS] [] = false from rfl]
    | cons x xs =>
      rw [rmatch_lit, rmatch_single_star]
      constructor
      · intro h
        rw [Bool.and_eq_true] at h
        obtain ⟨h1, h2⟩ := h
        have hx : x = '.' := (beq_iff_eq.mp h1).symm
        refine ⟨xs, by rw [hx], ?_⟩
        intro c hc
        have hcs := (List.all_eq_true.mp h2) c hc
        simpa using hcs
      · rintro ⟨t, heq, hall⟩
        injection heq with e1 e2
        rw [Bool.and_eq_true]
        constructor
        · rw [e1]
          exact beq_self_eq_true '.'
        · rw [List.all_eq_true]
          intro c hc
          rw [e2] at hc
          simpa using hall c hc
  · intro pat hgood
    have hstar : ∀ c ∈ pat.toList, c ≠ '*' := by
      intro c hc hcc
      subst hcc
      rcases hgood _ hc with h1 | h1
      · exact absurd h1 (by decide)
      · exact absurd h1 (by decide)
    have hqm : ∀ c ∈ pat.toList, c ≠ '?' := by
      intro c hc hcc
      subst hcc
      rcases hgood _ hc with h1 | h1
      · exact absurd h1 (by decide)
      · exact absurd h1 (by decide)
    have htr : globToRegex pat.toList = escapeDots pat.toList := by
      unfold globToRegex
      rw [replaceDstar_id _ hstar, replaceStar_id _ hstar, replaceQm_id _ hqm]
    rw [show matchesPattern s [pat]
        = ((match parseRegex (globToRegex pat.toList) with
            | some toks => rmatch toks s.toList
            | none => false) || false) from rfl,
      Bool.or_false, htr, parse_escapeDots _ hgood]
    show rmatch (pat.toList.map RTok.lit) s.toList = true ↔ _
    rw [rmatch_lits]
    simp

/-- Witness for C3's amended claim: the literal pattern `a.b` (with its
dot escaped) matches exactly the path `a.b`. -/
theorem matchesPattern_actual_semantics_witness :
    matchesPattern "a.b" ["a.b"] = true :=
  ((matchesPattern_actual_semantics "a.b").2.2.2 "a.b" (by decide)).mpr rfl
